import Mathlib

/-!
Verification development for the collectd ceph plugin (src/ceph.c).

The definitions below are a shallow embedding of the plugin's pure core:
  * `compact_ds_name`  — the display-name mangler (ceph.c:437-524),
  * `parse_keys_split` / `parse_keys` — the key-path splitter (ceph.c:525-571),
  * the latency rate engine `add_last` / `update_last` / `get_last_avg`
    (ceph.c:955-1040) together with the latency branch of
    `node_handler_fetch_data` (ceph.c:1071-1108),
  * the schema model `ceph_daemon_add_ds_entry` (ceph.c:600-706),
  * the yajl key-path reducer callbacks (ceph.c:258-383),
  * the connection state machine `cconn_handle_event` and the polling loop
    `cconn_main_loop` (ceph.c:1353-1670).

C strings are modelled as `List Char`, doubles as `Rat` extended with the
IEEE special values needed here (`CephVal`), machine-word counters as `Nat`
(all counter arithmetic in the source stays far from wrap-around in the
claims considered), and errno-style return codes as `Int`.  Environment
interaction (sockets, poll, time) is passed in explicitly as oracle data.
-/

deriving instance DecidableEq for Except

/-- collectd's DATA_MAX_NAME_LEN (name buffers hold at most 63 characters). -/
def DATA_MAX_NAME_LEN : Nat := 64

/-- MAX_RRD_DS_NAME_LEN from ceph.c (short-name budget, 19 characters + NUL). -/
def MAX_RRD_DS_NAME_LEN : Nat := 20

/-- Characters that strtok_r splits on in compact_ds_name (":_-+"). -/
def isDelimC (c : Char) : Bool := c = ':' || c = '_' || c = '-' || c = '+'

/-- strtok_r-style tokenizer: runs of non-delimiter characters, empty runs
skipped, in order of appearance (accumulator variant, reversed per token). -/
def tokenizeGo : List Char → List Char → List (List Char)
  | [], acc => if acc = [] then [] else [acc.reverse]
  | c :: t, acc =>
    if isDelimC c then
      (if acc = [] then tokenizeGo t [] else acc.reverse :: tokenizeGo t [])
    else tokenizeGo t (c :: acc)

/-- All strtok_r(":_-+") tokens of a string, in order. -/
def tokenize (l : List Char) : List (List Char) := tokenizeGo l []

/-- Capitalize the first character of a token (keys[i][0] = toupper(...)). -/
def capFirst : List Char → List Char
  | [] => []
  | c :: t => c.toUpper :: t

/-- The suffix-appending switch at the end of compact_ds_name (ceph.c:502-523).
`dest0` is the possibly truncated camel-cased body, `len_str` the 2-character
original-length suffix, and the bits of `a1`/`a2`/`a4` mirror append_status. -/
def compact_finish (dest0 len_str : List Char) (a1 a2 a4 : Bool) : List Char :=
  let astatus : Nat :=
    (if a1 then 1 else 0) + (if a2 then 2 else 0) + (if a4 then 4 else 0)
  if astatus = 1 then dest0 ++ ("Minus").toList
  else if astatus = 2 then dest0 ++ ("Plus").toList
  else if astatus = 4 then dest0 ++ len_str
  else if astatus = 5 then dest0 ++ ("Minus").toList ++ len_str
  else if astatus = 6 then dest0 ++ ("Plus").toList ++ len_str
  else dest0

/-- compact_ds_name (ceph.c:437-524): camel-case the ":_-+"-delimited tokens
(at most 16 of them), truncate into the short-name budget while reserving
room for the "Minus"/"Plus" marker of a trailing '-'/'+' and for the 2-digit
original-length suffix of an over-budget name.  The model returns the final
dest string; an empty source leaves dest empty (the early return at
ceph.c:447-450, callers pass a zeroed dest).  The take 63 models the
`tmp[DATA_MAX_NAME_LEN - 1] = 0` truncation of the concatenation buffer. -/
def compact_ds_name (source : List Char) : List Char :=
  if source = [] then []
  else
    let src_len := source.length
    let len_str := (Nat.repr src_len).toList.take 2
    let a1 : Bool := source.getLastD ' ' = '-'
    let a2 : Bool := source.getLastD ' ' = '+'
    let toks := ((tokenize source).take 16).map capFirst
    let tmp := toks.flatten.take (DATA_MAX_NAME_LEN - 1)
    let a4 : Bool := decide (MAX_RRD_DS_NAME_LEN - 1 < tmp.length)
    let reserved :=
      (if a4 then 2 else 0) + (if a1 then 5 else 0) + (if a2 then 4 else 0)
    let dest0 := tmp.take (MAX_RRD_DS_NAME_LEN - 1 - reserved)
    compact_finish dest0 len_str a1 a2 a4

/-- Index of the first occurrence of a character (strchr, as an offset). -/
def chrIdx (c : Char) : List Char → Option Nat
  | [] => none
  | a :: l => if a = c then some 0 else (chrIdx c l).map (fun i => i + 1)

/-- Index of the last occurrence of a character (strrchr, as an offset). -/
def rchrIdx (c : Char) : List Char → Option Nat
  | [] => none
  | a :: l =>
    match rchrIdx c l with
    | some i => some (i + 1)
    | none => if a = c then some 0 else none

/-- The strncmp(seg, "type", 4) == 0 test of ceph.c:552/561: a 4-character
comparison, i.e. it holds for every segment that BEGINS with "type". -/
def isTypeSeg (l : List Char) : Bool := l.take 4 = ("type").toList

/-- The key-splitting core of parse_keys (ceph.c:525-568), producing the
(dataset name, raw short name) pair before the compact_ds_name mangling.
`none` models the -1 early return for an empty key.  The take bounds model
the DATA_MAX_NAME_LEN-limited memcpy/strncpy calls into the zeroed
dset_name/tmp_ds_name buffers. -/
def parse_keys_split (key : List Char) : Option (List Char × List Char) :=
  if key = [] then none
  else
    match chrIdx '.' key, rchrIdx '.' key with
    | some p, some r =>
      let dset := key.take (min p (DATA_MAX_NAME_LEN - 1))
      let dlen := min (r - p) DATA_MAX_NAME_LEN
      if r - p = 0 then
        if isTypeSeg (key.drop (r + 1)) then some (dset, dset)
        else some (dset, (key.drop (r + 1)).take (DATA_MAX_NAME_LEN - 1))
      else if isTypeSeg (key.drop (r + 1)) then
        some (dset, (key.drop (p + 1)).take (dlen - 1))
      else some (dset, (key.drop (p + 1)).take (DATA_MAX_NAME_LEN - 1))
    | _, _ =>
      some (key.take (DATA_MAX_NAME_LEN - 1), key.take (DATA_MAX_NAME_LEN - 1))

/-- parse_keys (ceph.c:525-571): split, then mangle the short name. -/
def parse_keys (key : List Char) : Option (List Char × List Char) :=
  (parse_keys_split key).map (fun pr => (pr.1, compact_ds_name pr.2))

/-- Dot-joined rendering of a segment list (the shape of a key path). -/
def joinDots : List (List Char) → List Char
  | [] => []
  | [s] => s
  | s :: t :: rest => s ++ '.' :: joinDots (t :: rest)

/-- A C double restricted to the values this plugin produces: an exact
rational, NaN, or a signed infinity (from dividing a nonzero number by a
zero count delta). -/
inductive CephVal
  | num (q : Rat)
  | nan
  | inf (pos : Bool)
deriving DecidableEq

/-- The division `sum_delt / count_delt` at ceph.c:1026 (double divided by a
uint64_t converted to double), with the IEEE outcomes for a zero divisor. -/
def cvDiv (s : Rat) (n : Nat) : CephVal :=
  if n = 0 then (if s = 0 then CephVal.nan else CephVal.inf (0 < s))
  else CephVal.num (s / n)

/-- struct last_data (ceph.c:193-199): one rate-history entry. -/
structure LastData where
  dset_name : List Char
  ds_name : List Char
  last_sum : Rat
  last_count : Nat
deriving DecidableEq

/-- add_last (ceph.c:955-971): append a fresh entry; the sstrncpy calls
truncate the keys to their fixed-width fields. -/
def add_last (st : List LastData) (dset_n ds_n : List Char) (cur_sum : Rat)
    (cur_count : Nat) : List LastData :=
  st ++ [{ dset_name := dset_n.take (DATA_MAX_NAME_LEN - 1),
           ds_name := ds_n.take (MAX_RRD_DS_NAME_LEN - 1),
           last_sum := cur_sum, last_count := cur_count }]

/-- update_last (ceph.c:973-1007): overwrite the first matching entry in
place, else append via add_last.  (The allocation-failure path is not
modelled; allocations are assumed to succeed.) -/
def update_last (st : List LastData) (dset_n ds_n : List Char) (cur_sum : Rat)
    (cur_count : Nat) : List LastData :=
  match st with
  | [] => add_last [] dset_n ds_n cur_sum cur_count
  | e :: rest =>
    if e.dset_name = dset_n ∧ e.ds_name = ds_n then
      { e with last_sum := cur_sum, last_count := cur_count } :: rest
    else e :: update_last rest dset_n ds_n cur_sum cur_count

/-- The search loop of get_last_avg/update_last: first entry whose stored
keys strcmp-equal the probe keys. -/
def find_last (st : List LastData) (dset_n ds_n : List Char) : Option LastData :=
  match st with
  | [] => none
  | e :: rest =>
    if e.dset_name = dset_n ∧ e.ds_name = ds_n then some e
    else find_last rest dset_n ds_n

/-- get_last_avg (ceph.c:1009-1040): interval average for a latency key.
result starts as -1.1; a found entry with no count regression sets it to
sum_delt/count_delt; an exact -1.1 result is converted to NaN; the stored
baseline is always advanced to the current (sum, count). -/
def get_last_avg (st : List LastData) (dset_n ds_n : List Char) (cur_sum : Rat)
    (cur_count : Nat) : CephVal × List LastData :=
  let r : CephVal :=
    match find_last st dset_n ds_n with
    | none => CephVal.num (-11 / 10)
    | some e =>
      if cur_count < e.last_count then CephVal.num (-11 / 10)
      else cvDiv (cur_sum - e.last_sum) (cur_count - e.last_count)
  let r := if r = CephVal.num (-11 / 10) then CephVal.nan else r
  (r, update_last st dset_n ds_n cur_sum cur_count)

/-- The latency branch of node_handler_fetch_data (ceph.c:1071-1108), entered
on the second value of an avgcount/sum pair: a zero avgcount is replaced by
one, then either the long-run average sum/avgcount or the interval average
via get_last_avg is produced. -/
def fetch_latency_pair (longRun : Bool) (st : List LastData)
    (dset_n ds_n : List Char) (avgcount0 : Nat) (sum : Rat) :
    CephVal × List LastData :=
  let avgcount := if avgcount0 = 0 then 1 else avgcount0
  if longRun then (CephVal.num (sum / avgcount), st)
  else get_last_avg st dset_n ds_n sum avgcount

/-- The divisor of the division that fetch_latency_pair performs for a given
state: the (adjusted) cumulative count in long-run mode (ceph.c:1092), the
count delta in interval mode (ceph.c:1025-1026); `none` when no division
happens (no stored baseline, or a detected count regression). -/
def fetch_latency_divisor (longRun : Bool) (st : List LastData)
    (dset_n ds_n : List Char) (avgcount0 : Nat) : Option Nat :=
  let avgcount := if avgcount0 = 0 then 1 else avgcount0
  if longRun then some avgcount
  else
    match find_last st dset_n ds_n with
    | none => none
    | some e =>
      if avgcount < e.last_count then none else some (avgcount - e.last_count)

/-- One registered data source (struct data_source_s as filled at
ceph.c:695-704): display name (truncated to the short-name budget), whether
ds->type is DS_TYPE_DERIVE, and the minimum bound (none models NAN). -/
structure DsEntry where
  name : List Char
  isDerive : Bool
  minB : Option Rat
deriving DecidableEq, Inhabited

/-- One dataset of a daemon: its type name, its data sources, and the
parallel pc_types classification array kept by the daemon. -/
structure DataSetS where
  type_ : List Char
  ds : List DsEntry
  pcTypes : List Nat
deriving DecidableEq, Inhabited

/-- The entry built at ceph.c:695-704: name snprintf-truncated to
MAX_RRD_DS_NAME_LEN, DS_TYPE_DERIVE iff bit 0x8 (PERFCOUNTER_DERIVE) of the
stored type bits, min 0 for derive types and NAN otherwise (max is NAN). -/
def mk_ds_entry (pc : Nat) (ds_name : List Char) : DsEntry :=
  { name := ds_name.take (MAX_RRD_DS_NAME_LEN - 1),
    isDerive := pc &&& 8 ≠ 0,
    minB := if pc &&& 8 ≠ 0 then some 0 else none }

/-- The per-counter computation of ceph_daemon_add_ds_entry before the array
bookkeeping (ceph.c:609-621 and the convert_special_metrics override at
ceph.c:666-681): the long-name budget check, the parse_keys split, and the
forced pc_type = 10 for the filestore/JournalWrBytes counter when
special-metric coercion is on.  Returns (dset name, display name, stored
type bits); errors are the C return codes. -/
def add_ds_core (convert : Bool) (name : List Char) (pc : Nat) :
    Except Int (List Char × List Char × Nat) :=
  if DATA_MAX_NAME_LEN < name.length + 1 then Except.error (-36)
  else
    match parse_keys name with
    | none => Except.error 1
    | some (dn, sn) =>
      let pc' :=
        if convert = true ∧ dn = ("filestore").toList ∧
            sn = ("JournalWrBytes").toList then 10
        else pc
      Except.ok (dn, sn, pc')

/-- get_matching_dset (ceph.c:573-584): index of the dataset with this name. -/
def findDsetIdx (d : List DataSetS) (dn : List Char) : Option Nat :=
  match d with
  | [] => none
  | x :: rest =>
    if x.type_ = dn then some 0
    else (findDsetIdx rest dn).map (fun i => i + 1)

/-- ceph_daemon_add_ds_entry (ceph.c:600-706) on the dataset list of a
daemon: compute the entry data, then either append a new dataset for an
unseen dataset name or append the counter to the matching dataset.
Allocation failures are not modelled. -/
def ceph_daemon_add_ds_entry (convert : Bool) (d : List DataSetS)
    (name : List Char) (pc : Nat) : Except Int (List DataSetS) :=
  match add_ds_core convert name pc with
  | Except.error e => Except.error e
  | Except.ok (dn, sn, pc') =>
    match findDsetIdx d dn with
    | none =>
      Except.ok (d ++ [{ type_ := dn.take (DATA_MAX_NAME_LEN - 1),
                         ds := [mk_ds_entry pc' sn], pcTypes := [pc'] }])
    | some i =>
      let dsi := d.getD i default
      Except.ok (d.set i { dsi with ds := dsi.ds ++ [mk_ds_entry pc' sn],
                                    pcTypes := dsi.pcTypes ++ [pc'] })

/-- The three computation strategies for a counter. -/
inductive CKind
  | latency
  | derive
  | gauge
deriving DecidableEq

/-- How node_handler_fetch_data routes a counter from its stored type bits
(ceph.c:1071 and 1110): PERFCOUNTER_LATENCY = 0x4 first, then
PERFCOUNTER_DERIVE = 0x8, else gauge. -/
def fetch_kind (pc : Nat) : CKind :=
  if pc &&& 4 ≠ 0 then CKind.latency
  else if pc &&& 8 ≠ 0 then CKind.derive
  else CKind.gauge

/-- yajl parse events consumed by the reducer callbacks (the events the
protocol replies of this plugin produce on numeric payloads). -/
inductive JEv
  | startMap
  | mapKey (k : List Char)
  | num (v : List Char)
  | endMap
deriving DecidableEq

/-- YAJL_MAX_DEPTH, the bound checked in ceph_cb_map_key. -/
def YAJL_MAX_DEPTH : Nat := 512

/-- The reducer handler: (value text, key path) → status code.  0 continues,
RETRY_AVGCOUNT = -1 requests a retry with the full path, -ENOMEM aborts. -/
def RETRY_AVGCOUNT : Int := -1

/-- struct yajl_struct's mutable parse state (ceph.c:129-139) plus the trace
of handler invocations performed so far and the abort flag (CEPH_CB_ABORT). -/
structure YState where
  depth : Nat
  stack : List (List Char)
  invs : List (List Char × List Char)
  aborted : Bool
deriving DecidableEq

/-- Read yajl->state[i].key (zeroed storage outside the written range). -/
def stackGet (s : List (List Char)) (i : Nat) : List Char := s.getD i []

/-- Write yajl->state[i].key, extending the modelled array as needed. -/
def stackSet (s : List (List Char)) (i : Nat) (k : List Char) :
    List (List Char) :=
  if i < s.length then s.set i k
  else s ++ List.replicate (i - s.length) [] ++ [k]

/-- The key-building loop of ceph_cb_number (ceph.c:269-301), iterating
i = 1 .. depth-1 with `fuel = depth - i` steps remaining.  Returns `none`
for the convert_special_metrics skip of the avgcount sibling of
filestore.journal_wr_bytes, otherwise the dotted key together with the
latency_type flag (set when the loop stopped at a trailing avgcount/sum
segment).  The `2 ≤ i` conjunct guards the state[i-2] access, which the C
performs unguarded: for a leaf at depth 2 it would read state[-1]. -/
def num_key_go (convert : Bool) (stack : List (List Char)) (depth : Nat) :
    Nat → Nat → List Char → Option (List Char × Bool)
  | 0, _, acc => some (acc, false)
  | fuel + 1, i, acc =>
    if i = depth - 1 ∧ (stackGet stack i = ("avgcount").toList ∨
        stackGet stack i = ("sum").toList) then
      if convert = true ∧ 2 ≤ i ∧
          stackGet stack (i - 1) = ("journal_wr_bytes").toList ∧
          stackGet stack (i - 2) = ("filestore").toList ∧
          stackGet stack i = ("avgcount").toList then none
      else some (acc, true)
    else
      num_key_go convert stack depth fuel (i + 1)
        (acc ++ '.' :: stackGet stack i)

/-- The key reconstructed by ceph_cb_number for a leaf at the current depth. -/
def build_num_key (convert : Bool) (stack : List (List Char)) (depth : Nat) :
    Option (List Char × Bool) :=
  num_key_go convert stack depth (depth - 1) 1 (stackGet stack 0)

/-- ceph_cb_number (ceph.c:258-321): build the (possibly shortened) key,
invoke the handler, retry with the full key when the handler returns
RETRY_AVGCOUNT on a latency-type key, abort on -ENOMEM, pop the key stack. -/
def ceph_cb_number (convert : Bool)
    (handler : List Char → List Char → Int) (v : List Char) (st : YState) :
    YState :=
  match build_num_key convert st.stack st.depth with
  | none => { st with depth := st.depth - 1 }
  | some (key, latency) =>
    let r := handler v key
    let st1 := { st with invs := st.invs ++ [(v, key)] }
    let (r, st2) :=
      if r = RETRY_AVGCOUNT ∧ latency then
        let key2 := key ++ '.' :: stackGet st.stack (st.depth - 1)
        (handler v key2, { st1 with invs := st1.invs ++ [(v, key2)] })
      else (r, st1)
    if r = -12 then { st2 with aborted := true }
    else { st2 with depth := st2.depth - 1 }

/-- One yajl event step: ceph_cb_start_map / ceph_cb_map_key /
ceph_cb_number / ceph_cb_end_map (ceph.c:349-383).  After an abort
(CEPH_CB_ABORT) parsing stops, modelled by ignoring later events. -/
def ystep (convert : Bool) (handler : List Char → List Char → Int)
    (st : YState) (e : JEv) : YState :=
  if st.aborted then st
  else
    match e with
    | JEv.startMap => st
    | JEv.mapKey k =>
      if YAJL_MAX_DEPTH ≤ st.depth + 1 then { st with aborted := true }
      else { st with stack := stackSet st.stack st.depth k,
                     depth := st.depth + 1 }
    | JEv.num v => ceph_cb_number convert handler v st
    | JEv.endMap => { st with depth := st.depth - 1 }

/-- Run the reducer over an event stream from the initial parse state. -/
def yrun (convert : Bool) (handler : List Char → List Char → Int)
    (evs : List JEv) : YState :=
  evs.foldl (ystep convert handler) { depth := 0, stack := [], invs := [],
                                      aborted := false }

/-- A handler that accepts every (value, key) pair (returns 0). -/
def contH : List Char → List Char → Int := fun _ _ => 0

/-- A handler that always requests the full-path retry (RETRY_AVGCOUNT). -/
def retryH : List Char → List Char → Int := fun _ _ => RETRY_AVGCOUNT

/-- The yajl->state indices read by the convert_special_metrics comparison
in ceph_cb_number for a numeric leaf at nesting depth `d`: the branch runs
at i = depth-1 and reads state[i-1] and state[i-2] (ceph.c:286-287). -/
def special_state_indices (d : Nat) : List Int :=
  [(d : Int) - 2, (d : Int) - 3]

/-- The event stream yajl produces for the JSON object
\x7b"filestore":\x7b"journal_wr_bytes":\x7b"avgcount":7,"sum":42.0\x7d\x7d\x7d. -/
def jwbEvents : List JEv :=
  [JEv.startMap, JEv.mapKey (("filestore").toList), JEv.startMap,
   JEv.mapKey (("journal_wr_bytes").toList), JEv.startMap,
   JEv.mapKey (("avgcount").toList), JEv.num (("7").toList),
   JEv.mapKey (("sum").toList), JEv.num (("42.0").toList),
   JEv.endMap, JEv.endMap, JEv.endMap]

/-- enum cstate_t (ceph.c:203-210). -/
inductive Cstate
  | unconnected
  | writeRequest
  | readVersion
  | readAmt
  | readJson
deriving DecidableEq, Inhabited

/-- errno constants used by the connection code (Linux values). -/
def errEDOM : Int := 33

/-- EIO. -/
def eioErr : Int := 5

/-- EINVAL. -/
def errEINVAL : Int := 22

/-- ENOTSUP (the unsupported-version fatal error, ceph.c:1420). -/
def errENOTSUP : Int := 95

/-- ETIMEDOUT (the shared-deadline error, ceph.c:1616). -/
def errETIMEDOUT : Int := 110

/-- struct cconn (ceph.c:221-246) plus the daemon fields it touches
(version, dset_num).  `asok = -1` is the closed-socket sentinel; `vbytes`
and `lbytes` model the partially read 4-byte version and length words,
`json` the bytes of the JSON reply read so far. -/
structure CConn where
  requestType : Nat
  state : Cstate
  asok : Int
  amt : Nat
  jsonLen : Nat
  json : List Nat
  vbytes : List Nat
  lbytes : List Nat
  version : Nat
  dsetNum : Nat
deriving DecidableEq, Inhabited

/-- The outcome of the single non-blocking I/O attempt a state-machine step
performs: an error code, a number of bytes accepted by write, or the bytes
produced by read together with the cconn_process_json result used when the
JSON read completes. -/
inductive IOEvent
  | ioError (c : Int)
  | ioWrote (n : Nat)
  | ioRead (bs : List Nat) (proc : Int)
deriving DecidableEq

/-- 4-byte big-endian decode (the effect of reading into a uint32_t and
applying ntohl), with bytes clamped to octets. -/
def beDecode (l : List Nat) : Nat := l.foldl (fun a b => a * 256 + b % 256) 0

/-- The request written in CSTATE_WRITE_REQUEST (ceph.c:1365-1375):
`\x7b "prefix": "<N>" \x7d\n`, or the fsid config-get request. -/
def asok_req_cmd (rt : Nat) : List Char :=
  if rt = 3 then
    ("\x7b \"prefix\": \"config get\",\"var\": \"fsid\" \x7d\n").toList
  else
    ("\x7b \"prefix\": \"").toList ++ (Nat.repr rt).toList ++ ("\" \x7d\n").toList

/-- cconn_close (ceph.c:1171-1184): close the socket, reset the state and
byte counters, free the JSON buffer. -/
def cconn_close (c : CConn) : CConn :=
  { c with state := Cstate.unconnected, asok := -1, amt := 0, jsonLen := 0,
           json := [], lbytes := [] }

/-- cconn_handle_event (ceph.c:1353-1492): advance one connection by exactly
one I/O step.  Reads never yield more bytes than were requested, modelled by
the take clamps.  ASOK_REQ_VERSION = 0, ASOK_REQ_FSID = 3,
ASOK_REQ_SCHEMA = 2, ASOK_REQ_NONE = 1000, as in ceph.c:212-219. -/
def cconn_handle_event (c : CConn) (ev : IOEvent) : Except Int CConn :=
  match c.state with
  | Cstate.unconnected => Except.error (-errEDOM)
  | Cstate.writeRequest =>
    match ev with
    | IOEvent.ioError e => Except.error e
    | IOEvent.ioRead _ _ => Except.error (-errEINVAL)
    | IOEvent.ioWrote n =>
      let cmdLen := (asok_req_cmd c.requestType).length
      let amt := c.amt + min n (cmdLen - c.amt)
      if cmdLen ≤ amt then
        Except.ok { c with amt := 0,
                           state := (if c.requestType = 0 then
                                       Cstate.readVersion
                                     else Cstate.readAmt),
                           vbytes := [], lbytes := [] }
      else Except.ok { c with amt := amt }
  | Cstate.readVersion =>
    match ev with
    | IOEvent.ioError e => Except.error e
    | IOEvent.ioWrote _ => Except.error (-errEINVAL)
    | IOEvent.ioRead bs _ =>
      let got := bs.take (4 - c.amt)
      let vb := c.vbytes ++ got
      let amt := c.amt + got.length
      if 4 ≤ amt then
        if beDecode vb ≠ 1 then Except.error (-errENOTSUP)
        else
          Except.ok { (cconn_close { c with version := beDecode vb,
                                            vbytes := vb }) with
                      requestType := 3 }
      else Except.ok { c with vbytes := vb, amt := amt }
  | Cstate.readAmt =>
    match ev with
    | IOEvent.ioError e => Except.error e
    | IOEvent.ioWrote _ => Except.error (-errEINVAL)
    | IOEvent.ioRead bs _ =>
      let got := bs.take (4 - c.amt)
      let lb := c.lbytes ++ got
      let amt := c.amt + got.length
      if 4 ≤ amt then
        Except.ok { c with jsonLen := beDecode lb, lbytes := lb, amt := 0,
                           state := Cstate.readJson, json := [] }
      else Except.ok { c with lbytes := lb, amt := amt }
  | Cstate.readJson =>
    match ev with
    | IOEvent.ioError e => Except.error e
    | IOEvent.ioWrote _ => Except.error (-errEINVAL)
    | IOEvent.ioRead bs proc =>
      let got := bs.take (c.jsonLen - c.amt)
      let js := c.json ++ got
      let amt := c.amt + got.length
      if c.jsonLen ≤ amt then
        if proc ≠ 0 then Except.error proc
        else
          let c2 := cconn_close { c with json := js }
          if c.requestType = 3 then
            Except.ok { c2 with amt := 0, requestType := 2 }
          else Except.ok { c2 with requestType := 1000 }
      else Except.ok { c with json := js, amt := amt }

/-- cconn_connect (ceph.c:1127-1169), with the socket/connect/fcntl outcome
supplied by the environment: on success the connection enters
CSTATE_WRITE_REQUEST with fresh counters. -/
def cconn_connect (c : CConn) (res : Except Int Nat) : Except Int CConn :=
  if c.state ≠ Cstate.unconnected then Except.error (-errEDOM)
  else
    match res with
    | Except.error e => Except.error e
    | Except.ok fd =>
      Except.ok { c with asok := (fd : Int), state := Cstate.writeRequest,
                         amt := 0, jsonLen := 0, json := [] }

/-- What cconn_prepare registers for a connection: nothing, or a descriptor
with a readiness direction (true = POLLOUT, false = POLLIN). -/
inductive PrepRes
  | inactive
  | registered (pollout : Bool)
deriving DecidableEq

/-- cconn_prepare (ceph.c:1494-1539): serviced requests and data requests of
counterless daemons are skipped; an unconnected state connects first. -/
def cconn_prepare (c : CConn) (res : Except Int Nat) :
    Except Int (PrepRes × CConn) :=
  if c.requestType = 1000 then Except.ok (PrepRes.inactive, c)
  else if c.requestType = 1 ∧ c.dsetNum = 0 then Except.ok (PrepRes.inactive, c)
  else
    match c.state with
    | Cstate.unconnected =>
      match cconn_connect c res with
      | Except.error e => Except.error e
      | Except.ok c2 => Except.ok (PrepRes.registered true, c2)
    | Cstate.writeRequest => Except.ok (PrepRes.registered true, c)
    | _ => Except.ok (PrepRes.registered false, c)

/-- poll(2) readiness bits as used by this plugin. -/
def POLLIN : Nat := 1

/-- POLLOUT. -/
def POLLOUT : Nat := 4

/-- POLLERR. -/
def POLLERR : Nat := 8

/-- cconn_validate_revents (ceph.c:1330-1350): 0 on a matching event,
negative errno otherwise. -/
def cconn_validate_revents (c : CConn) (rv : Nat) : Int :=
  if rv &&& POLLERR ≠ 0 then -eioErr
  else
    match c.state with
    | Cstate.writeRequest => if rv &&& POLLOUT ≠ 0 then 0 else -errEINVAL
    | Cstate.readVersion => if rv &&& POLLIN ≠ 0 then 0 else -errEINVAL
    | Cstate.readAmt => if rv &&& POLLIN ≠ 0 then 0 else -errEINVAL
    | Cstate.readJson => if rv &&& POLLIN ≠ 0 then 0 else -errEINVAL
    | Cstate.unconnected => -errEDOM

/-- Why cconn_main_loop's while(1) stopped. -/
inductive StopReason
  | allDone
  | timedOut
  | pollFailed (c : Int)
deriving DecidableEq

/-- The environment's contribution to one iteration of the main loop: the
connect outcome per connection index, the milli_diff(end, now) reading, the
poll(2) outcome (revents per polled-list position, or a failure code), and
the I/O outcome per polled-list position. -/
structure RoundEnv where
  connectRes : Nat → Except Int Nat
  diff : Int
  pollRes : Except Int (Nat → Nat)
  ioEv : Nat → IOEvent

/-- Result of one pass through the while(1) body. -/
inductive IterOut
  | done (reason : StopReason) (code : Int) (conns : List CConn)
  | cont (conns : List CConn)
deriving Inhabited

/-- The prepare phase of one iteration (ceph.c:1584-1603): run cconn_prepare
on every connection in order; a failure closes that connection and marks its
request serviced; registered connections join the polled list (as indices
into the connection array, in order). -/
def prep_phase (env : RoundEnv) (conns : List CConn) :
    List CConn × List Nat :=
  (List.range conns.length).foldl
    (fun acc i =>
      let c := acc.1.getD i default
      match cconn_prepare c (env.connectRes i) with
      | Except.error _ =>
        (acc.1.set i { (cconn_close c) with requestType := 1000 }, acc.2)
      | Except.ok (PrepRes.inactive, c2) => (acc.1.set i c2, acc.2)
      | Except.ok (PrepRes.registered _, c2) =>
        (acc.1.set i c2, acc.2 ++ [i]))
    (conns, [])

/-- Service one ready descriptor (ceph.c:1626-1655): nothing on zero
revents; a validation failure or a handle_event error closes the connection
and marks it serviced (unreachable this cycle). -/
def service_one (env : RoundEnv) (k : Nat) (conns : List CConn) (i : Nat)
    (rv : Nat) : List CConn :=
  let c := conns.getD i default
  if rv = 0 then conns
  else if cconn_validate_revents c rv ≠ 0 then
    conns.set i { (cconn_close c) with requestType := 1000 }
  else
    match cconn_handle_event c (env.ioEv k) with
    | Except.error _ => conns.set i { (cconn_close c) with requestType := 1000 }
    | Except.ok c2 => conns.set i c2

/-- One pass through the while(1) body of cconn_main_loop (ceph.c:1577-1656):
prepare, stop when nothing is registered (success), stop at the deadline
(ETIMEDOUT), stop on a poll failure (its code), else service every polled
descriptor. -/
def loopIter (env : RoundEnv) (conns : List CConn) : IterOut :=
  if (prep_phase env conns).2 = [] then
    IterOut.done StopReason.allDone 0 (prep_phase env conns).1
  else if env.diff ≤ 0 then
    IterOut.done StopReason.timedOut (-errETIMEDOUT) (prep_phase env conns).1
  else
    match env.pollRes with
    | Except.error e =>
      IterOut.done (StopReason.pollFailed e) e (prep_phase env conns).1
    | Except.ok rv =>
      IterOut.cont ((List.range (prep_phase env conns).2.length).foldl
        (fun acc k =>
          service_one env k acc ((prep_phase env conns).2.getD k 0) (rv k))
        (prep_phase env conns).1)

/-- cconn_main_loop (ceph.c:1556-1670) driven by a finite trace of
environment rounds: iterate until the loop stops, then force-close every
connection (the done: block at ceph.c:1657-1660).  `none` means the trace
ended before the loop stopped. -/
def cconn_main_loop_run :
    List RoundEnv → List CConn → Option (StopReason × Int × List CConn)
  | [], _ => none
  | e :: rest, conns =>
    match loopIter e conns with
    | IterOut.done r code cs => some (r, code, cs.map cconn_close)
    | IterOut.cont cs => cconn_main_loop_run rest cs

/-- A daemon connection at the start of initialization, about to read the
4-byte protocol version (the request was already written). -/
def conn7 : CConn :=
  { requestType := 0, state := Cstate.readVersion, asok := 5, amt := 0,
    jsonLen := 0, json := [], vbytes := [], lbytes := [], version := 0,
    dsetNum := 0 }

/-- An environment round whose daemon answers the version request with the
big-endian bytes 00 00 00 02. -/
def round7 : RoundEnv :=
  { connectRes := fun _ => Except.ok 5, diff := 500,
    pollRes := Except.ok (fun _ => POLLIN),
    ioEv := fun _ => IOEvent.ioRead [0, 0, 0, 2] 0 }

/-- The closed, serviced connection the bad-version cycle ends with. -/
def conn7end : CConn :=
  { requestType := 1000, state := Cstate.unconnected, asok := -1, amt := 0,
    jsonLen := 0, json := [], vbytes := [], lbytes := [], version := 0,
    dsetNum := 0 }

theorem compact_finish_length (dest0 len_str : List Char) (a1 a2 a4 : Bool)
    (hd : dest0.length ≤ MAX_RRD_DS_NAME_LEN - 1 -
      ((if a4 then 2 else 0) + (if a1 then 5 else 0) + (if a2 then 4 else 0)))
    (hl : len_str.length ≤ 2) :
    (compact_finish dest0 len_str a1 a2 a4).length ≤ MAX_RRD_DS_NAME_LEN := by
  have h5 : (("Minus").toList).length = 5 := by decide
  have h4 : (("Plus").toList).length = 4 := by decide
  cases a1 <;> cases a2 <;> cases a4 <;>
    simp_all [compact_finish, MAX_RRD_DS_NAME_LEN, List.length_append] <;>
    omega

/-- Claim C4: for every input string, the name-mangling step (camel-casing
underscore/hyphen/colon/plus-delimited tokens, truncating over-budget
results with a 2-digit original-length suffix, and appending Minus/Plus for
a trailing '-'/'+' before any length suffix) never produces a display name
longer than the 20-character short-name budget, because space for every
suffix is reserved before truncation.  The second conjunct checks the
spec's 30-character hyphen-suffixed example, which keeps the Minus marker
and the original-length suffix within the budget. -/
theorem mangle_bound_C4 :
    (∀ source : List Char,
      (compact_ds_name source).length ≤ MAX_RRD_DS_NAME_LEN) ∧
    compact_ds_name (("abcdefghijklmnopqrstuvwxyzabc-").toList) =
      ("AbcdefghijklMinus30").toList := by
  refine ⟨fun source => ?_, by decide⟩
  unfold compact_ds_name
  split
  · simp [MAX_RRD_DS_NAME_LEN]
  · apply compact_finish_length
    · simp [List.length_take]
    · simp [List.length_take]

/-- Claim C5 counterexample: with special-metric coercion enabled, running
the reducer on the nested JSON for filestore.journal_wr_bytes with a handler
that accepts the offered key fires exactly one callback, but its path is the
latency-pair short path, not `filestore.journal_wr_bytes.sum` as the claim
states; and with a handler that requests the full-path retry (the only way
the `.sum` path is ever offered) two callbacks fire, not one. -/
theorem reducer_path_C5_cx :
    (yrun true contH jwbEvents).invs.length = 1 ∧
    (yrun true contH jwbEvents).invs ≠
      [(("42.0").toList, ("filestore.journal_wr_bytes.sum").toList)] ∧
    (yrun true retryH jwbEvents).invs.length ≠ 1 := by decide

/-- Claim C5 (amended): when the key-path reducer processes the nested JSON
for filestore.journal_wr_bytes with special-metric coercion enabled, exactly
one leaf handler callback fires — for the latency-pair short path
`filestore.journal_wr_bytes` with value 42.0, the avgcount sibling being
skipped entirely; the full path `filestore.journal_wr_bytes.sum` is offered
only as the retry when the handler returns RETRY_AVGCOUNT.  With coercion
disabled, two callbacks fire: avgcount=7 then sum=42.0, both under the
short path. -/
theorem reducer_paths_C5 :
    (yrun true contH jwbEvents).invs =
      [(("42.0").toList, ("filestore.journal_wr_bytes").toList)] ∧
    (yrun false contH jwbEvents).invs =
      [(("7").toList, ("filestore.journal_wr_bytes").toList),
       (("42.0").toList, ("filestore.journal_wr_bytes").toList)] ∧
    (yrun true retryH jwbEvents).invs =
      [(("42.0").toList, ("filestore.journal_wr_bytes").toList),
       (("42.0").toList, ("filestore.journal_wr_bytes.sum").toList)] := by
  decide

/-- Claim C9: the convert_special_metrics branch of ceph_cb_number indexes
the key stack at depth-2 and depth-3 whenever a numeric leaf's immediate key
is avgcount or sum.  A JSON leaf at nesting depth 2 (one enclosing map) does
arise — after the events below the parse state has depth 2 with immediate
key avgcount — and there the branch's stack indices include -1, so the
branch is well-defined only for leaves at depth at least 3, where every
index is nonnegative (the embedding guards the accesses accordingly). -/
theorem reducer_guard_C9 (d : Nat) (hd : 3 ≤ d) :
    ((yrun true contH [JEv.startMap, JEv.mapKey (("x").toList), JEv.startMap,
        JEv.mapKey (("avgcount").toList)]).depth = 2 ∧
      stackGet (yrun true contH [JEv.startMap, JEv.mapKey (("x").toList),
        JEv.startMap, JEv.mapKey (("avgcount").toList)]).stack 1 =
        ("avgcount").toList ∧
      ∃ j ∈ special_state_indices 2, j < 0) ∧
    (∀ j ∈ special_state_indices d, 0 ≤ j) := by
  refine ⟨by decide, ?_⟩
  intro j hj
  simp only [special_state_indices, List.mem_cons, List.mem_singleton,
    List.not_mem_nil, or_false] at hj
  rcases hj with h | h <;> omega

/-- Witness for reducer_guard_C9, instantiated at depth 3. -/
theorem reducer_guard_C9_witness :
    (yrun true contH [JEv.startMap, JEv.mapKey (("x").toList), JEv.startMap,
        JEv.mapKey (("avgcount").toList)]).depth = 2 ∧
    stackGet (yrun true contH [JEv.startMap, JEv.mapKey (("x").toList),
        JEv.startMap, JEv.mapKey (("avgcount").toList)]).stack 1 =
      ("avgcount").toList ∧
    ∃ j ∈ special_state_indices 2, j < 0 :=
  (reducer_guard_C9 3 (by decide)).1

theorem update_last_not_found (st : List LastData) (dn ds : List Char)
    (s : Rat) (c : Nat) (h : find_last st dn ds = none) :
    update_last st dn ds s c =
      st ++ [{ dset_name := dn.take (DATA_MAX_NAME_LEN - 1),
               ds_name := ds.take (MAX_RRD_DS_NAME_LEN - 1),
               last_sum := s, last_count := c }] := by
  induction st with
  | nil => simp [update_last, add_last]
  | cons e rest ih =>
    simp only [find_last] at h
    by_cases hm : e.dset_name = dn ∧ e.ds_name = ds
    · simp [hm] at h
    · simp only [update_last, if_neg hm, List.cons_append, List.cons.injEq,
        true_and]
      exact ih (by simpa [hm] using h)

theorem find_last_append_one (st : List LastData) (dn ds : List Char)
    (x : LastData) (h : find_last st dn ds = none)
    (hx : x.dset_name = dn ∧ x.ds_name = ds) :
    find_last (st ++ [x]) dn ds = some x := by
  induction st with
  | nil => simp [find_last, hx]
  | cons e rest ih =>
    simp only [find_last] at h ⊢
    by_cases hm : e.dset_name = dn ∧ e.ds_name = ds
    · simp [hm] at h
    · simp only [if_neg hm]
      exact ih (by simpa [hm] using h)

theorem find_last_update_found (st : List LastData) (dn ds : List Char)
    (s : Rat) (c : Nat) (e : LastData) (h : find_last st dn ds = some e) :
    find_last (update_last st dn ds s c) dn ds =
      some { e with last_sum := s, last_count := c } := by
  induction st with
  | nil => simp [find_last] at h
  | cons e0 rest ih =>
    simp only [find_last] at h
    by_cases hm : e0.dset_name = dn ∧ e0.ds_name = ds
    · simp only [if_pos hm] at h
      cases h
      simp [update_last, if_pos hm, find_last, hm]
    · simp only [if_neg hm] at h
      simp only [update_last, if_neg hm, find_last, if_neg hm]
      exact ih h

/-- Claim C10: in interval mode, the very first observation of a given
(dataset name, counter name) key reports not-a-number — there is no stored
baseline to diff against — and creates the rate-history entry with the
observed cumulative sum and count, so the earliest poll that can report a
numeric interval average for the key is the second one. -/
theorem first_observation_C10 (st : List LastData) (dn ds : List Char)
    (s : Rat) (c : Nat) (hnf : find_last st dn ds = none)
    (h1 : dn.length ≤ DATA_MAX_NAME_LEN - 1)
    (h2 : ds.length ≤ MAX_RRD_DS_NAME_LEN - 1) :
    (get_last_avg st dn ds s c).1 = CephVal.nan ∧
    (get_last_avg st dn ds s c).2 =
      st ++ [{ dset_name := dn, ds_name := ds, last_sum := s,
               last_count := c }] ∧
    find_last (get_last_avg st dn ds s c).2 dn ds =
      some { dset_name := dn, ds_name := ds, last_sum := s, last_count := c } := by
  have hdn : dn.take (DATA_MAX_NAME_LEN - 1) = dn := List.take_of_length_le h1
  have hds : ds.take (MAX_RRD_DS_NAME_LEN - 1) = ds := List.take_of_length_le h2
  have hupd := update_last_not_found st dn ds s c hnf
  rw [hdn, hds] at hupd
  refine ⟨?_, ?_, ?_⟩
  · simp [get_last_avg, hnf]
  · simpa [get_last_avg] using hupd
  · simp only [get_last_avg, hupd]
    exact find_last_append_one st dn ds _ hnf ⟨rfl, rfl⟩

/-- Witness for first_observation_C10: a first poll of (sum 10, count 5). -/
theorem first_observation_C10_witness :
    (get_last_avg [] (("fs").toList) (("Ctr").toList) 10 5).1 = CephVal.nan ∧
    (get_last_avg [] (("fs").toList) (("Ctr").toList) 10 5).2 =
      [] ++ [{ dset_name := ("fs").toList, ds_name := ("Ctr").toList,
               last_sum := 10, last_count := 5 }] ∧
    find_last (get_last_avg [] (("fs").toList) (("Ctr").toList) 10 5).2
        (("fs").toList) (("Ctr").toList) =
      some { dset_name := ("fs").toList, ds_name := ("Ctr").toList,
             last_sum := 10, last_count := 5 } :=
  first_observation_C10 [] (("fs").toList) (("Ctr").toList) 10 5 rfl
    (by decide) (by decide)

/-- Claim C1: in interval mode, a latency key observed on two successive
polls as (sum 10.0, count 5) then (sum 30.0, count 15) reports 2.0 on the
second poll; whenever the current cumulative count is strictly less than
the stored previous count the engine reports not-a-number for that interval
while still advancing the stored baseline to the new (sum, count); hence a
subsequent observation (25.0, 10) after a regression to (5.0, 3) reports
20.0/7. -/
theorem rate_interval_C1 (st : List LastData) (dn ds : List Char)
    (e : LastData) (s : Rat) (c : Nat)
    (hf : find_last st dn ds = some e) (hc : c < e.last_count) :
    ((get_last_avg [] (("fs").toList) (("Ctr").toList) 10 5).1 =
        CephVal.nan ∧
      (get_last_avg (get_last_avg [] (("fs").toList) (("Ctr").toList)
          10 5).2 (("fs").toList) (("Ctr").toList) 30 15).1 =
        CephVal.num 2) ∧
    ((get_last_avg st dn ds s c).1 = CephVal.nan ∧
      find_last (get_last_avg st dn ds s c).2 dn ds =
        some { e with last_sum := s, last_count := c }) ∧
    ((get_last_avg [⟨("fs").toList, ("Ctr").toList, 30, 15⟩]
          (("fs").toList) (("Ctr").toList) 5 3).1 = CephVal.nan ∧
      (get_last_avg (get_last_avg [⟨("fs").toList, ("Ctr").toList, 30, 15⟩]
          (("fs").toList) (("Ctr").toList) 5 3).2 (("fs").toList)
          (("Ctr").toList) 25 10).1 = CephVal.num (20 / 7)) := by
  refine ⟨⟨?_, ?_⟩, ⟨?_, ?_⟩, ⟨?_, ?_⟩⟩
  · norm_num [get_last_avg, find_last, update_last, add_last, cvDiv]
  · norm_num [get_last_avg, find_last, update_last, add_last, cvDiv,
      DATA_MAX_NAME_LEN, MAX_RRD_DS_NAME_LEN]
  · simp [get_last_avg, hf, hc]
  · simp only [get_last_avg]
    exact find_last_update_found st dn ds s c e hf
  · norm_num [get_last_avg, find_last, update_last, add_last, cvDiv]
  · norm_num [get_last_avg, find_last, update_last, add_last, cvDiv,
      DATA_MAX_NAME_LEN, MAX_RRD_DS_NAME_LEN]

/-- Witness for rate_interval_C1: the regression (30.0, 15) then (5.0, 3). -/
theorem rate_interval_C1_witness :
    (get_last_avg [⟨("fs").toList, ("Ctr").toList, 30, 15⟩]
        (("fs").toList) (("Ctr").toList) 5 3).1 = CephVal.nan ∧
    find_last (get_last_avg [⟨("fs").toList, ("Ctr").toList, 30, 15⟩]
        (("fs").toList) (("Ctr").toList) 5 3).2 (("fs").toList)
        (("Ctr").toList) =
      some ⟨("fs").toList, ("Ctr").toList, 5, 3⟩ :=
  (rate_interval_C1 [⟨("fs").toList, ("Ctr").toList, 30, 15⟩]
    (("fs").toList) (("Ctr").toList) ⟨("fs").toList, ("Ctr").toList, 30, 15⟩
    5 3 (by norm_num [find_last]) (by norm_num)).2.1

theorem get_last_avg_division_site (st : List LastData) (dn ds : List Char)
    (s : Rat) (c : Nat) (e : LastData) (hf : find_last st dn ds = some e)
    (hge : e.last_count ≤ c) :
    (get_last_avg st dn ds s c).1 =
      (if cvDiv (s - e.last_sum) (c - e.last_count) =
          CephVal.num (-11 / 10) then CephVal.nan
       else cvDiv (s - e.last_sum) (c - e.last_count)) := by
  simp [get_last_avg, hf, Nat.not_lt.mpr hge]

/-- Claim C2 counterexample: for the successive observations (10.0, 5) then
(20.0, 5) of the same key in interval mode — a stalled cumulative count —
the divisor used for the average is the count delta 0, and the division is
actually performed, yielding +infinity; this contradicts the claim that the
divisor is nonzero for every pair of successive observations (the zero→one
replacement only guards the current count, not the count delta). -/
theorem rate_divisor_C2_cx :
    fetch_latency_divisor false [⟨("fs").toList, ("Ctr").toList, 10, 5⟩]
      (("fs").toList) (("Ctr").toList) 5 = some 0 ∧
    (fetch_latency_pair false [⟨("fs").toList, ("Ctr").toList, 10, 5⟩]
      (("fs").toList) (("Ctr").toList) 5 20).1 = CephVal.inf true := by
  constructor
  · norm_num [fetch_latency_divisor, find_last]
  · norm_num [fetch_latency_pair, get_last_avg, find_last, update_last,
      cvDiv]
    exact fun h => nomatch h

/-- Claim C2 (amended): the rate computation replaces a current cumulative
count of zero by one before dividing, so in long-run mode the divisor is
always at least one; in interval mode the count-delta divisor is zero
exactly when the (adjusted) current count equals the stored previous count
— in that case the code does divide by a zero count delta — and is nonzero
otherwise. -/
theorem rate_divisor_C2 (longRun : Bool) (st : List LastData)
    (dn ds : List Char) (a0 d : Nat)
    (h : fetch_latency_divisor longRun st dn ds a0 = some d) :
    (longRun = true → 1 ≤ d) ∧
    (longRun = false →
      (d = 0 ↔ ∃ e, find_last st dn ds = some e ∧
        e.last_count = (if a0 = 0 then 1 else a0))) := by
  cases longRun
  · refine ⟨fun hh => (nomatch hh), fun _ => ?_⟩
    simp only [fetch_latency_divisor, if_false, Bool.false_eq_true] at h
    rcases hfe : find_last st dn ds with _ | e
    · rw [hfe] at h
      exact absurd h (by simp)
    · rw [hfe] at h
      have h2 : (if (if a0 = 0 then 1 else a0) < e.last_count then none
          else some ((if a0 = 0 then 1 else a0) - e.last_count)) =
            some d := h
      by_cases hlt : (if a0 = 0 then 1 else a0) < e.last_count
      · rw [if_pos hlt] at h2
        exact absurd h2 (by simp)
      · rw [if_neg hlt] at h2
        have hd : (if a0 = 0 then 1 else a0) - e.last_count = d :=
          Option.some.inj h2
        constructor
        · intro h0
          exact ⟨e, rfl, by omega⟩
        · rintro ⟨e2, hfe2, hcnt⟩
          cases Option.some.inj hfe2
          omega
  · refine ⟨fun _ => ?_, fun hh => (nomatch hh)⟩
    simp only [fetch_latency_divisor, if_true] at h
    have hd : (if a0 = 0 then 1 else a0) = d := Option.some.inj h
    by_cases h0 : a0 = 0 <;> simp [h0] at hd <;> omega

/-- Witness for rate_divisor_C2: long-run mode with a zero current count,
whose divisor is the replaced value one. -/
theorem rate_divisor_C2_witness :
    (true = true → 1 ≤ 1) ∧
    (true = false →
      (1 = 0 ↔ ∃ e, find_last [] (("fs").toList) (("Ctr").toList) = some e ∧
        e.last_count = (if 0 = 0 then 1 else 0))) :=
  rate_divisor_C2 true [] (("fs").toList) (("Ctr").toList) 0 1 (by decide)

theorem getD_append_self {α : Type} (l : List α) (x y : α) :
    (l ++ [x]).getD l.length y = x := by
  induction l with
  | nil => rfl
  | cons a t ih =>
    simp only [List.cons_append, List.length_cons, List.getD_cons_succ]
    exact ih

theorem getD_set_self {α : Type} (l : List α) (i : Nat) (v y : α)
    (h : i < l.length) : (l.set i v).getD i y = v := by
  induction l generalizing i with
  | nil => simp at h
  | cons a t ih =>
    cases i with
    | zero => rfl
    | succ j => simpa [List.getD] using ih j (by simpa using h)

theorem findDsetIdx_lt (d : List DataSetS) (dn : List Char) (i : Nat)
    (h : findDsetIdx d dn = some i) : i < d.length := by
  induction d generalizing i with
  | nil => simp [findDsetIdx] at h
  | cons x rest ih =>
    simp only [findDsetIdx] at h
    by_cases hx : x.type_ = dn
    · rw [if_pos hx] at h
      cases Option.some.inj h
      simp
    · rw [if_neg hx] at h
      rcases Option.map_eq_some'.mp h with ⟨j, hj, rfl⟩
      have := ih j hj
      simp
      omega

/-- Claim C6 counterexample: registering the schema key
filestore.journal_wr_bytes.type with raw type bits 5 (latency bit 0x4 set,
derive bit 0x8 clear) while special-metric coercion is enabled stores type
bits 10 instead: the counter is routed as a derive counter, not as the
latency pair the raw bits dictate, and it receives the minimum bound 0
although the raw bits classify it as a non-derive counter. -/
theorem classify_C6_cx :
    ceph_daemon_add_ds_entry true []
        (("filestore.journal_wr_bytes.type").toList) 5 =
      Except.ok [⟨("filestore").toList,
        [⟨("JournalWrBytes").toList, true, some 0⟩], [10]⟩] ∧
    fetch_kind 5 = CKind.latency ∧
    fetch_kind 5 ≠ CKind.derive ∧
    fetch_kind 10 = CKind.derive := by decide

/-- Claim C6 (amended): for every counter registered with
ceph_daemon_add_ds_entry, the value kind is determined by the STORED type
bits, which equal the raw bits except that the counter registering under
dataset filestore with display name JournalWrBytes has its bits replaced by
10 when special-metric coercion is enabled: bit 0x4 of the stored bits
routes it as a latency sum/count pair, bit 0x8 classifies it as a monotonic
derive counter, otherwise it is a gauge; the minimum bound is zero exactly
when stored bit 0x8 is set, and all other counters are unbounded below. -/
theorem classify_C6 (convert : Bool) (d : List DataSetS) (name : List Char)
    (pc : Nat) (dn sn : List Char) (pc2 : Nat)
    (hc : add_ds_core convert name pc = Except.ok (dn, sn, pc2)) :
    (∃ d2, ceph_daemon_add_ds_entry convert d name pc = Except.ok d2 ∧
      ∃ i, i < d2.length ∧
        (d2.getD i default).ds.getLast? = some (mk_ds_entry pc2 sn) ∧
        (d2.getD i default).pcTypes.getLast? = some pc2) ∧
    ((mk_ds_entry pc2 sn).isDerive = true ↔ pc2 &&& 8 ≠ 0) ∧
    ((mk_ds_entry pc2 sn).minB = some 0 ↔ pc2 &&& 8 ≠ 0) ∧
    (fetch_kind pc2 = CKind.latency ↔ pc2 &&& 4 ≠ 0) ∧
    (¬(convert = true ∧ dn = ("filestore").toList ∧
        sn = ("JournalWrBytes").toList) → pc2 = pc) := by
  refine ⟨?_, ?_, ?_, ?_, ?_⟩
  · simp only [ceph_daemon_add_ds_entry, hc]
    rcases hfi : findDsetIdx d dn with _ | i
    · refine ⟨_, rfl, d.length, ?_, ?_, ?_⟩
      · simp
      · rw [getD_append_self]
        simp
      · rw [getD_append_self]
        simp
    · have hlt := findDsetIdx_lt d dn i hfi
      refine ⟨_, rfl, i, ?_, ?_, ?_⟩
      · simpa using hlt
      · rw [getD_set_self _ _ _ _ hlt]
        simp [List.getLast?_concat]
      · rw [getD_set_self _ _ _ _ hlt]
        simp [List.getLast?_concat]
  · simp [mk_ds_entry]
  · by_cases hb : pc2 &&& 8 ≠ 0 <;> simp [mk_ds_entry, hb]
  · unfold fetch_kind
    split
    · simp_all
    · split <;> simp_all
  · intro hn
    simp only [add_ds_core] at hc
    split at hc
    · exact absurd hc (by simp)
    · rcases hp : parse_keys name with _ | pr
      · rw [hp] at hc
        exact absurd hc (by simp)
      · rw [hp] at hc
        obtain ⟨hdn, hsn, hpc⟩ :
            pr.1 = dn ∧ pr.2 = sn ∧
              (if convert = true ∧ pr.1 = ("filestore").toList ∧
                  pr.2 = ("JournalWrBytes").toList then 10 else pc) = pc2 := by
          have := Except.ok.inj hc
          exact ⟨congrArg Prod.fst this,
            congrArg Prod.fst (congrArg Prod.snd this),
            congrArg Prod.snd (congrArg Prod.snd this)⟩
        rw [hdn, hsn] at hpc
        rw [if_neg hn] at hpc
        omega

/-- Witness for classify_C6: an osd latency counter with raw bits 5,
registered into an empty daemon without coercion. -/
theorem classify_C6_witness :
    (∃ d2, ceph_daemon_add_ds_entry false []
        (("osd.op_latency.type").toList) 5 = Except.ok d2 ∧
      ∃ i, i < d2.length ∧
        (d2.getD i default).ds.getLast? =
          some (mk_ds_entry 5 (("OpLatency").toList)) ∧
        (d2.getD i default).pcTypes.getLast? = some 5) ∧
    ((mk_ds_entry 5 (("OpLatency").toList)).isDerive = true ↔
      5 &&& 8 ≠ 0) ∧
    ((mk_ds_entry 5 (("OpLatency").toList)).minB = some 0 ↔ 5 &&& 8 ≠ 0) ∧
    (fetch_kind 5 = CKind.latency ↔ 5 &&& 4 ≠ 0) ∧
    (¬(false = true ∧ ("osd").toList = ("filestore").toList ∧
        ("OpLatency").toList = ("JournalWrBytes").toList) → 5 = 5) :=
  classify_C6 false [] (("osd.op_latency.type").toList) 5 (("osd").toList)
    (("OpLatency").toList) 5 (by decide)

/-- Claim C7: if the 4-byte big-endian protocol version read in the
ReadVersion state decodes to any value other than 1 (for example the bytes
00 00 00 02), the state machine returns the fatal unsupported-version error
-ENOTSUP for that daemon; in the polling loop this closes the connection and
marks its request serviced, so the daemon never advances to the FSID or
Schema request states (last conjunct, on the concrete two-round cycle).
Only a version equal to 1 closes the socket and sets the next request kind
to FSID (= 3). -/
theorem version_check_C7 (c : CConn) (bs : List Nat) (pr : Int)
    (h1 : c.state = Cstate.readVersion) (h2 : c.amt = 0)
    (h3 : c.vbytes = []) (h4 : 4 ≤ bs.length) :
    (beDecode (bs.take 4) ≠ 1 →
      cconn_handle_event c (IOEvent.ioRead bs pr) =
        Except.error (-errENOTSUP)) ∧
    (beDecode (bs.take 4) = 1 →
      cconn_handle_event c (IOEvent.ioRead bs pr) =
        Except.ok { (cconn_close { c with version := 1,
                                          vbytes := bs.take 4 }) with
                    requestType := 3 }) ∧
    beDecode [0, 0, 0, 2] = 2 ∧
    (cconn_main_loop_run [round7, round7] [conn7] =
      some (StopReason.allDone, 0, [conn7end]) ∧
     conn7end.requestType ≠ 3 ∧ conn7end.requestType ≠ 2) := by
  have hlen : (bs.take 4).length = 4 := by
    simp [List.length_take]
    omega
  refine ⟨?_, ?_, by decide, by decide⟩
  · intro hne
    simp [cconn_handle_event, h1, h2, h3, hlen, hne]
  · intro heq
    simp [cconn_handle_event, h1, h2, h3, hlen, heq]

/-- Witness for version_check_C7: the version bytes 00 00 00 02 are fatal. -/
theorem version_check_C7_witness :
    cconn_handle_event conn7 (IOEvent.ioRead [0, 0, 0, 2] 0) =
      Except.error (-errENOTSUP) :=
  (version_check_C7 conn7 [0, 0, 0, 2] 0 rfl rfl rfl (by decide)).1
    (by decide)

theorem mem_map_close (l : List CConn) (c : CConn)
    (h : c ∈ l.map cconn_close) :
    c.asok = -1 ∧ c.state = Cstate.unconnected := by
  rcases List.mem_map.mp h with ⟨x, _, rfl⟩
  exact ⟨rfl, rfl⟩

theorem loopIter_done_cases (env : RoundEnv) (cs : List CConn)
    (r : StopReason) (code : Int) (out : List CConn)
    (h : loopIter env cs = IterOut.done r code out) :
    (r = StopReason.allDone ∧ code = 0 ∧ (prep_phase env cs).2 = []) ∨
    (r = StopReason.timedOut ∧ code = -errETIMEDOUT ∧ env.diff ≤ 0) ∨
    (∃ e, r = StopReason.pollFailed e ∧ code = e ∧
      env.pollRes = Except.error e) := by
  unfold loopIter at h
  by_cases h1 : (prep_phase env cs).2 = []
  · rw [if_pos h1] at h
    obtain ⟨hr, hc, _⟩ := IterOut.done.inj h
    exact Or.inl ⟨hr.symm, hc.symm, h1⟩
  · rw [if_neg h1] at h
    by_cases h2 : env.diff ≤ 0
    · rw [if_pos h2] at h
      obtain ⟨hr, hc, _⟩ := IterOut.done.inj h
      exact Or.inr (Or.inl ⟨hr.symm, hc.symm, h2⟩)
    · rw [if_neg h2] at h
      cases hp : env.pollRes with
      | error e =>
        rw [hp] at h
        obtain ⟨hr, hc, _⟩ := IterOut.done.inj h
        exact Or.inr (Or.inr ⟨e, hr.symm, hc.symm, rfl⟩)
      | ok f =>
        rw [hp] at h
        exact IterOut.noConfusion h

theorem loopIter_cont_cases (env : RoundEnv) (cs cs2 : List CConn)
    (h : loopIter env cs = IterOut.cont cs2) :
    (prep_phase env cs).2 ≠ [] ∧ 0 < env.diff ∧
    ∃ f, env.pollRes = Except.ok f := by
  unfold loopIter at h
  by_cases h1 : (prep_phase env cs).2 = []
  · rw [if_pos h1] at h
    exact IterOut.noConfusion h
  · rw [if_neg h1] at h
    by_cases h2 : env.diff ≤ 0
    · rw [if_pos h2] at h
      exact IterOut.noConfusion h
    · rw [if_neg h2] at h
      cases hp : env.pollRes with
      | error e =>
        rw [hp] at h
        exact IterOut.noConfusion h
      | ok f =>
        exact ⟨h1, by omega, f, rfl⟩

/-- Claim C8: the multiplexing event loop terminates exactly when no
connection remains active (success, return 0), or the shared deadline is
reached (ETIMEDOUT for the whole cycle), or the readiness-poll primitive
fails (its error code, fatal for the whole cycle) — the loop continues only
when none of the three conditions holds (last conjunct) — and in every
termination case every connection's socket is force-closed before the loop
returns. -/
theorem event_loop_C8 (envs : List RoundEnv) (conns : List CConn)
    (r : StopReason) (code : Int) (cs : List CConn)
    (h : cconn_main_loop_run envs conns = some (r, code, cs)) :
    (∀ c ∈ cs, c.asok = -1 ∧ c.state = Cstate.unconnected) ∧
    ((r = StopReason.allDone ∧ code = 0) ∨
     (r = StopReason.timedOut ∧ code = -errETIMEDOUT) ∨
     (∃ e, r = StopReason.pollFailed e ∧ code = e)) ∧
    (∀ env cs0 cs1, loopIter env cs0 = IterOut.cont cs1 →
      (prep_phase env cs0).2 ≠ [] ∧ 0 < env.diff ∧
      ∃ f, env.pollRes = Except.ok f) := by
  have main : (∀ c ∈ cs, c.asok = -1 ∧ c.state = Cstate.unconnected) ∧
      ((r = StopReason.allDone ∧ code = 0) ∨
       (r = StopReason.timedOut ∧ code = -errETIMEDOUT) ∨
       (∃ e, r = StopReason.pollFailed e ∧ code = e)) := by
    induction envs generalizing conns with
    | nil => simp [cconn_main_loop_run] at h
    | cons e rest ih =>
      simp only [cconn_main_loop_run] at h
      rcases hit : loopIter e conns with ⟨r0, code0, cs0⟩ | cs0
      · rw [hit] at h
        have h3 := Option.some.inj h
        obtain ⟨hr, hrest⟩ := Prod.mk.inj h3
        obtain ⟨hcode, hcs⟩ := Prod.mk.inj hrest
        constructor
        · intro c hc
          rw [← hcs] at hc
          exact mem_map_close cs0 c hc
        · rcases loopIter_done_cases e conns r0 code0 cs0 hit with
            ⟨h1, h2, _⟩ | ⟨h1, h2, _⟩ | ⟨e2, h1, h2, _⟩
          · exact Or.inl ⟨hr ▸ h1, hcode ▸ h2⟩
          · exact Or.inr (Or.inl ⟨hr ▸ h1, hcode ▸ h2⟩)
          · exact Or.inr (Or.inr ⟨e2, hr ▸ h1, hcode ▸ h2⟩)
      · rw [hit] at h
        exact ih cs0 h
  exact ⟨main.1, main.2, fun env cs0 cs1 hh => loopIter_cont_cases env cs0 cs1 hh⟩

/-- Witness for event_loop_C8: one already-serviced daemon, one round; the
loop ends with no active connection and the connection force-closed. -/
theorem event_loop_C8_witness :
    (∀ c ∈ [conn7end], c.asok = -1 ∧ c.state = Cstate.unconnected) ∧
    ((StopReason.allDone = StopReason.allDone ∧ (0 : Int) = 0) ∨
     (StopReason.allDone = StopReason.timedOut ∧ (0 : Int) = -errETIMEDOUT) ∨
     (∃ e, StopReason.allDone = StopReason.pollFailed e ∧ (0 : Int) = e)) ∧
    (∀ env cs0 cs1, loopIter env cs0 = IterOut.cont cs1 →
      (prep_phase env cs0).2 ≠ [] ∧ 0 < env.diff ∧
      ∃ f, env.pollRes = Except.ok f) :=
  event_loop_C8 [round7] [conn7end] StopReason.allDone 0 [conn7end]
    (by decide)

theorem chrIdx_cons_self (c : Char) (l : List Char) :
    chrIdx c (c :: l) = some 0 := by
  simp [chrIdx]

theorem chrIdx_append_right (c : Char) (s t : List Char) (h : c ∉ s) :
    chrIdx c (s ++ t) = (chrIdx c t).map (fun i => s.length + i) := by
  induction s with
  | nil => simp
  | cons a s ih =>
    have ha : a ≠ c := by
      intro hh
      exact h (by simp [hh])
    have ih2 := ih (by intro hh; exact h (by simp [hh]))
    show (if a = c then some 0
          else (chrIdx c (s ++ t)).map (fun i => i + 1)) =
        (chrIdx c t).map (fun i => (a :: s).length + i)
    rw [if_neg ha, ih2]
    cases hh : chrIdx c t with
    | none => simp
    | some i =>
      simp only [Option.map_some']
      have hc : (a :: s).length = s.length + 1 := rfl
      congr 1
      omega

theorem chrIdx_first_dot (s0 t : List Char) (h : '.' ∉ s0) :
    chrIdx '.' (s0 ++ '.' :: t) = some s0.length := by
  rw [chrIdx_append_right _ _ _ h, chrIdx_cons_self]
  simp

theorem rchrIdx_not_mem (c : Char) (l : List Char) (h : c ∉ l) :
    rchrIdx c l = none := by
  induction l with
  | nil => rfl
  | cons a t ih =>
    have ha : a ≠ c := by
      intro hh
      exact h (by simp [hh])
    simp only [rchrIdx, ih (by intro hh; exact h (by simp [hh])), if_neg ha]

theorem rchrIdx_append (c : Char) (s t : List Char) :
    rchrIdx c (s ++ t) =
      match rchrIdx c t with
      | some i => some (s.length + i)
      | none => rchrIdx c s := by
  induction s with
  | nil =>
    cases hh : rchrIdx c t with
    | some i => simp [hh]
    | none => simp [hh, rchrIdx]
  | cons a s ih =>
    show (match rchrIdx c (s ++ t) with
          | some i => some (i + 1)
          | none => if a = c then some 0 else none) =
        match rchrIdx c t with
        | some i => some ((a :: s).length + i)
        | none => rchrIdx c (a :: s)
    rw [ih]
    cases hh : rchrIdx c t with
    | some i =>
      show some (s.length + i + 1) = some ((a :: s).length + i)
      have hc : (a :: s).length = s.length + 1 := rfl
      congr 1
      omega
    | none => rfl

theorem rchrIdx_last_dot (A last : List Char) (h : '.' ∉ last) :
    rchrIdx '.' (A ++ '.' :: last) = some A.length := by
  rw [rchrIdx_append]
  have h1 : rchrIdx '.' ('.' :: last) = some 0 := by
    simp [rchrIdx, rchrIdx_not_mem _ _ h]
  rw [h1]
  rfl

theorem joinDots_cons (s : List Char) (m : List (List Char)) (hm : m ≠ []) :
    joinDots (s :: m) = s ++ '.' :: joinDots m := by
  cases m with
  | nil => exact absurd rfl hm
  | cons a t => rfl

theorem joinDots_concat (front : List (List Char)) (last : List Char)
    (h : front ≠ []) :
    joinDots (front ++ [last]) = joinDots front ++ '.' :: last := by
  induction front with
  | nil => exact absurd rfl h
  | cons f fr ih =>
    cases fr with
    | nil => rfl
    | cons f2 fr2 =>
      have e1 : (f :: f2 :: fr2) ++ [last] = f :: ((f2 :: fr2) ++ [last]) :=
        rfl
      rw [e1, joinDots_cons _ _ (by simp), ih (by simp),
          show joinDots (f :: f2 :: fr2) = f ++ '.' :: joinDots (f2 :: fr2)
            from rfl]
      simp

theorem take_append_self (s t : List Char) : (s ++ t).take s.length = s := by
  induction s with
  | nil => rfl
  | cons a s ih =>
    show a :: (s ++ t).take s.length = a :: s
    rw [ih]

theorem drop_append_cons (s t : List Char) (b : Char) :
    (s ++ b :: t).drop (s.length + 1) = t := by
  induction s with
  | nil => rfl
  | cons a s ih => exact ih

/-- Claim C3 counterexample: "a.typex" is a key path of two dot-separated
segments whose last segment is not "type", so the claimed rule requires the
Counter short name to be the final segment "typex"; but parse_keys uses a
4-character strncmp, treats the trailing "typex" as a type segment, and
returns the first segment "a" as the raw short name instead. -/
theorem schema_split_C3_cx :
    joinDots [("a").toList, ("typex").toList] = ("a.typex").toList ∧
    ("typex").toList ≠ ("type").toList ∧
    parse_keys_split (("a.typex").toList) =
      some (("a").toList, ("a").toList) ∧
    ("a").toList ≠ ("typex").toList := by decide

/-- Claim C3 (amended): for every key path of at least two dot-separated
segments that fits the 63-character name budget (so no truncation occurs),
parse_keys splits it into the first segment as the Dataset name and a raw
Counter short name obtained by: drop a trailing segment that BEGINS with
"type" (4-character prefix comparison); with exactly two segments the short
name is the first segment when the last begins with "type" and the final
segment otherwise; with more than two segments the short name is the
interior segments joined by dots when the last begins with "type", and ALL
segments after the first joined by dots (the final segment included)
otherwise.  Re-running the split on the same input yields identical output
(the split is a pure function). -/
theorem schema_split_C3 (s0 last : List Char) (mid : List (List Char))
    (hs0 : '.' ∉ s0) (hlast : '.' ∉ last)
    (hlen : (joinDots (s0 :: (mid ++ [last]))).length ≤ 63) :
    (parse_keys_split (joinDots (s0 :: (mid ++ [last]))) =
      some (s0,
        if isTypeSeg last = true then
          (if mid = [] then s0 else joinDots mid)
        else
          (if mid = [] then last else joinDots (mid ++ [last])))) ∧
    parse_keys (joinDots (s0 :: (mid ++ [last]))) =
      parse_keys (joinDots (s0 :: (mid ++ [last]))) := by
  refine ⟨?_, rfl⟩
  cases mid with
  | nil =>
    have hK : joinDots (s0 :: ([] ++ [last])) = s0 ++ '.' :: last :=
      joinDots_cons s0 [last] (by simp)
    have hKlen : (joinDots (s0 :: ([] ++ [last]))).length =
        s0.length + 1 + last.length := by
      rw [hK]
      simp
      omega
    have hp : chrIdx '.' (joinDots (s0 :: ([] ++ [last]))) =
        some s0.length := by
      rw [hK]
      exact chrIdx_first_dot _ _ hs0
    have hr : rchrIdx '.' (joinDots (s0 :: ([] ++ [last]))) =
        some s0.length := by
      rw [hK]
      exact rchrIdx_last_dot _ _ hlast
    have hne : joinDots (s0 :: ([] ++ [last])) ≠ [] := by
      rw [hK]
      simp
    have hmin : min s0.length (DATA_MAX_NAME_LEN - 1) = s0.length :=
      Nat.min_eq_left (by simp only [DATA_MAX_NAME_LEN]; omega)
    have htake : (joinDots (s0 :: ([] ++ [last]))).take s0.length = s0 := by
      rw [hK]
      exact take_append_self _ _
    have hdrop : (joinDots (s0 :: ([] ++ [last]))).drop (s0.length + 1) =
        last := by
      rw [hK]
      exact drop_append_cons _ _ _
    have hlast63 : last.take (DATA_MAX_NAME_LEN - 1) = last :=
      List.take_of_length_le (by simp only [DATA_MAX_NAME_LEN]; omega)
    unfold parse_keys_split
    rw [if_neg hne, hp, hr]
    simp only [Nat.sub_self, if_pos rfl, hmin, htake, hdrop, hlast63]
    by_cases ht : isTypeSeg last = true
    · simp [ht]
    · simp [ht]
  | cons m0 ms =>
    have hI : joinDots (s0 :: m0 :: ms) = s0 ++ '.' :: joinDots (m0 :: ms) :=
      rfl
    have hJ1 : joinDots ((m0 :: ms) ++ [last]) =
        joinDots (m0 :: ms) ++ '.' :: last :=
      joinDots_concat _ _ (by simp)
    have hK : joinDots (s0 :: ((m0 :: ms) ++ [last])) =
        s0 ++ '.' :: (joinDots (m0 :: ms) ++ '.' :: last) := by
      rw [joinDots_cons s0 _ (by simp), hJ1]
    have hK2 : joinDots (s0 :: ((m0 :: ms) ++ [last])) =
        (s0 ++ '.' :: joinDots (m0 :: ms)) ++ '.' :: last := by
      rw [hK]
      simp
    have hKlen : (joinDots (s0 :: ((m0 :: ms) ++ [last]))).length =
        s0.length + 1 + (joinDots (m0 :: ms)).length + 1 + last.length := by
      rw [hK]
      simp
      omega
    have hp : chrIdx '.' (joinDots (s0 :: ((m0 :: ms) ++ [last]))) =
        some s0.length := by
      rw [hK]
      exact chrIdx_first_dot _ _ hs0
    have hr : rchrIdx '.' (joinDots (s0 :: ((m0 :: ms) ++ [last]))) =
        some (s0.length + 1 + (joinDots (m0 :: ms)).length) := by
      rw [hK2]
      have := rchrIdx_last_dot (s0 ++ '.' :: joinDots (m0 :: ms)) last hlast
      rw [this]
      congr 1
      simp
      omega
    have hne : joinDots (s0 :: ((m0 :: ms) ++ [last])) ≠ [] := by
      rw [hK]
      simp
    have hmin : min s0.length (DATA_MAX_NAME_LEN - 1) = s0.length :=
      Nat.min_eq_left (by simp only [DATA_MAX_NAME_LEN]; omega)
    have htake : (joinDots (s0 :: ((m0 :: ms) ++ [last]))).take s0.length =
        s0 := by
      rw [hK]
      exact take_append_self _ _
    have hsub : s0.length + 1 + (joinDots (m0 :: ms)).length - s0.length =
        (joinDots (m0 :: ms)).length + 1 := by
      omega
    have hsubne : ¬(s0.length + 1 + (joinDots (m0 :: ms)).length -
        s0.length = 0) := by
      omega
    have hdlen : min ((joinDots (m0 :: ms)).length + 1) DATA_MAX_NAME_LEN =
        (joinDots (m0 :: ms)).length + 1 :=
      Nat.min_eq_left (by simp only [DATA_MAX_NAME_LEN]; omega)
    have hdropP : (joinDots (s0 :: ((m0 :: ms) ++ [last]))).drop
        (s0.length + 1) = joinDots (m0 :: ms) ++ '.' :: last := by
      rw [hK]
      exact drop_append_cons _ _ _
    have hdropR : (joinDots (s0 :: ((m0 :: ms) ++ [last]))).drop
        (s0.length + 1 + (joinDots (m0 :: ms)).length + 1) = last := by
      rw [hK2]
      have := drop_append_cons (s0 ++ '.' :: joinDots (m0 :: ms)) last '.'
      simp only [List.length_append, List.length_cons] at this
      have harith : s0.length + 1 + (joinDots (m0 :: ms)).length + 1 =
          s0.length + ((joinDots (m0 :: ms)).length + 1) + 1 := by omega
      rw [harith]
      exact this
    have htakeI : (joinDots (m0 :: ms) ++ '.' :: last).take
        (joinDots (m0 :: ms)).length = joinDots (m0 :: ms) := by
      exact take_append_self _ _
    have htake63 : (joinDots (m0 :: ms) ++ '.' :: last).take
        (DATA_MAX_NAME_LEN - 1) = joinDots (m0 :: ms) ++ '.' :: last :=
      List.take_of_length_le (by
        simp only [DATA_MAX_NAME_LEN, List.length_append, List.length_cons]
        omega)
    unfold parse_keys_split
    rw [if_neg hne, hp, hr]
    simp only [hsub, hsubne, if_neg, hmin, htake, hdlen, hdropP, hdropR,
      Nat.add_sub_cancel, htakeI, htake63, hJ1]
    by_cases ht : isTypeSeg last = true
    · simp [ht]
    · simp [ht]

/-- Witness for schema_split_C3: the three-segment path a.b.type. -/
theorem schema_split_C3_witness :
    (parse_keys_split (joinDots (("a").toList ::
        ([("b").toList] ++ [("type").toList]))) =
      some (("a").toList,
        if isTypeSeg (("type").toList) = true then
          (if [("b").toList] = ([] : List (List Char)) then ("a").toList
           else joinDots [("b").toList])
        else
          (if [("b").toList] = ([] : List (List Char)) then ("type").toList
           else joinDots ([("b").toList] ++ [("type").toList])))) ∧
    parse_keys (joinDots (("a").toList ::
        ([("b").toList] ++ [("type").toList]))) =
      parse_keys (joinDots (("a").toList ::
        ([("b").toList] ++ [("type").toList]))) :=
  schema_split_C3 (("a").toList) (("type").toList) [("b").toList]
    (by decide) (by decide) (by decide)
